import Mathlib

/-!
Verification of the mig HTTP framework core (levmv/mig): shallow embedding of
the Response wrapper, the structured error model, the execution engine's
panic-recovery path, the default error handler, query-parameter access,
JSON binding, pooled-context reset, and route-group middleware composition.
Where the repository contains two generations of a file, the newer generation
is embedded (the spec designates it authoritative).
-/

set_option autoImplicit false
set_option linter.unusedVariables false

namespace Mig

/-! ## Go error model

Embeds the error values the framework manipulates: `http.ErrAbortHandler`
(the transport abort sentinel), plain errors (`errors.New` / `fmt.Errorf`
without `%w`), wrapping errors (`fmt.Errorf` with `%w`), and the framework's
`*HTTPError` (mig.go: `HTTPError{Code, Message, Internal, Stack}`).
`GoErr.nil` stands for Go's nil error, used only as an absent internal cause. -/

inductive GoErr where
  | nil : GoErr
  | abortHandler : GoErr
  | plain (msg : String) : GoErr
  | wrapped (msg : String) (inner : GoErr) : GoErr
  | httpError (code : Nat) (message : String) (internal : GoErr) (stack : String) : GoErr
deriving DecidableEq

/-- Models Go `http.StatusText` for the status codes the framework uses. -/
def statusText (code : Nat) : String :=
  match code with
  | 200 => "OK"
  | 204 => "No Content"
  | 304 => "Not Modified"
  | 400 => "Bad Request"
  | 401 => "Unauthorized"
  | 404 => "Not Found"
  | 500 => "Internal Server Error"
  | _ => ""

/-- mig.go `NewHTTPError(code)`: code plus the standard status text, no cause,
no stack. -/
def NewHTTPError (code : Nat) : GoErr :=
  GoErr.httpError code (statusText code) GoErr.nil ""

/-- Models Go `errors.Is(err, target)`: equality, else follow the `Unwrap`
chain (`HTTPError.Unwrap` returns `Internal`; a wrap returns its inner error;
a nil internal cause stops the walk). -/
def errorsIs : GoErr → GoErr → Bool
  | GoErr.wrapped m i, t => (GoErr.wrapped m i == t) || errorsIs i t
  | GoErr.httpError c m i s, t =>
      (GoErr.httpError c m i s == t) || (i != GoErr.nil && errorsIs i t)
  | e, t => e == t

/-- The coerced form of a `*HTTPError` as the error handler sees it. -/
structure HTTPError where
  Code : Nat
  Message : String
  Internal : GoErr
  Stack : String
deriving DecidableEq

/-- Models `errors.As(err, &e)` for target type `*HTTPError`: the first
`HTTPError` on the unwrap chain, if any. -/
def errorsAsHTTP : GoErr → Option HTTPError
  | GoErr.httpError c m i s => some ⟨c, m, i, s⟩
  | GoErr.wrapped _ inner => errorsAsHTTP inner
  | _ => none

/-! ## Response wrapper (response.go, newer generation)

`Response` wraps an `http.ResponseWriter` and tracks the status code and the
bytes written. The underlying sink is external: its identity is the `sink`
field, and the result of each underlying `Write` call (bytes actually
forwarded, error) is an input to the model. -/

structure Response where
  sink : Nat
  status : Nat
  written : Nat
deriving DecidableEq

/-- response.go `WriteHeader`: record the code only if no status is set yet
(0 means unset); the call is always forwarded to the underlying writer. -/
def respWriteHeader (w : Response) (code : Nat) : Response :=
  if w.status == 0 then { w with status := code } else w

/-- response.go `Write`: implicit 200 if called before `WriteHeader`; forward
the bytes; accumulate the count the underlying sink reports as written
(`forwarded`), not the requested count; return the forwarded count and the
underlying error unchanged. `requested` is the length of the byte slice
passed in; `forwarded`/`errOut` are the underlying writer's results. -/
def respWrite (w : Response) (requested forwarded : Nat) (errOut : Option GoErr) :
    Nat × Option GoErr × Response :=
  let w1 := if w.status == 0 then respWriteHeader w 200 else w
  (forwarded, errOut, { w1 with written := w1.written + forwarded })

/-- response.go `Status()`: 200 when nothing was recorded yet. -/
def respStatus (w : Response) : Nat :=
  if w.status == 0 then 200 else w.status

/-- response.go `Written()`. -/
def respWritten (w : Response) : Nat :=
  w.written

/-- One call to `Response.Write`: the requested byte count and the underlying
sink's reported result for that call. -/
structure WriteCall where
  requested : Nat
  forwarded : Nat
  errOut : Option GoErr
deriving DecidableEq

/-- A freshly reset `Response` bound to sink `rw` (status and counter zeroed,
as `Context.Reset` leaves it). -/
def freshResponse (rw : Nat) : Response :=
  ⟨rw, 0, 0⟩

/-- Run a sequence of `Write` calls (no explicit `WriteHeader`), keeping the
final wrapper state. -/
def runWrites (w : Response) (calls : List WriteCall) : Response :=
  calls.foldl (fun acc c => (respWrite acc c.requested c.forwarded c.errOut).2.2) w

theorem respWrite_fst (w : Response) (req fwd : Nat) (e : Option GoErr) :
    (respWrite w req fwd e).1 = fwd := rfl

theorem respWrite_err (w : Response) (req fwd : Nat) (e : Option GoErr) :
    (respWrite w req fwd e).2.1 = e := rfl

theorem respWrite_state_status (w : Response) (req fwd : Nat) (e : Option GoErr) :
    (respWrite w req fwd e).2.2.status = if w.status = 0 then 200 else w.status := by
  simp only [respWrite, respWriteHeader]
  by_cases h : w.status = 0 <;> simp [h]

theorem respWrite_state_written (w : Response) (req fwd : Nat) (e : Option GoErr) :
    (respWrite w req fwd e).2.2.written = w.written + fwd := by
  simp only [respWrite, respWriteHeader]
  by_cases h : w.status = 0 <;> simp [h]

theorem runWrites_cons (w : Response) (c : WriteCall) (rest : List WriteCall) :
    runWrites w (c :: rest) =
      runWrites (respWrite w c.requested c.forwarded c.errOut).2.2 rest := rfl

theorem runWrites_written (calls : List WriteCall) (w : Response) :
    (runWrites w calls).written = w.written + (calls.map (fun c => c.forwarded)).sum := by
  induction calls generalizing w with
  | nil => simp [runWrites]
  | cons c rest ih =>
      rw [runWrites_cons, ih, respWrite_state_written]
      simp [Nat.add_assoc]

theorem runWrites_status_stable (calls : List WriteCall) (w : Response)
    (h : w.status ≠ 0) : (runWrites w calls).status = w.status := by
  induction calls generalizing w with
  | nil => rfl
  | cons c rest ih =>
      rw [runWrites_cons, ih _ (by rw [respWrite_state_status]; simp [h])]
      rw [respWrite_state_status]
      simp [h]

/-- C8: on a freshly reset Response, writing body bytes before any explicit
WriteHeader implicitly records status 200 (so Status() = 200 afterwards),
Written() accumulates exactly the byte counts the underlying sink reports as
forwarded (not the requested counts), and every Write call returns the
forwarded count and the underlying error unchanged. -/
theorem response_write_implicit_200 (rw : Nat) (calls : List WriteCall)
    (hne : calls ≠ []) :
    respStatus (runWrites (freshResponse rw) calls) = 200 ∧
    (runWrites (freshResponse rw) calls).status = 200 ∧
    respWritten (runWrites (freshResponse rw) calls) =
      (calls.map (fun c => c.forwarded)).sum ∧
    (∀ (w : Response) (c : WriteCall),
      (respWrite w c.requested c.forwarded c.errOut).1 = c.forwarded ∧
      (respWrite w c.requested c.forwarded c.errOut).2.1 = c.errOut) := by
  have hstat : (runWrites (freshResponse rw) calls).status = 200 := by
    cases calls with
    | nil => exact absurd rfl hne
    | cons c rest =>
        rw [runWrites_cons,
          runWrites_status_stable _ _ (by rw [respWrite_state_status]; simp [freshResponse]),
          respWrite_state_status]
        simp [freshResponse]
  refine ⟨?_, hstat, ?_, ?_⟩
  · unfold respStatus
    rw [hstat]
    simp
  · rw [respWritten, runWrites_written]
    simp [freshResponse]
  · intro w c
    exact ⟨respWrite_fst w c.requested c.forwarded c.errOut,
      respWrite_err w c.requested c.forwarded c.errOut⟩

/-- Witness for `response_write_implicit_200` at a concrete two-call run
(5 bytes requested and forwarded, then 7 requested with only 3 forwarded). -/
theorem response_write_implicit_200_check :
    respStatus (runWrites (freshResponse 1) [⟨5, 5, none⟩, ⟨7, 3, none⟩]) = 200 ∧
    (runWrites (freshResponse 1) [⟨5, 5, none⟩, ⟨7, 3, none⟩]).status = 200 ∧
    respWritten (runWrites (freshResponse 1) [⟨5, 5, none⟩, ⟨7, 3, none⟩]) =
      (([⟨5, 5, none⟩, ⟨7, 3, none⟩] : List WriteCall).map (fun c => c.forwarded)).sum ∧
    (∀ (w : Response) (c : WriteCall),
      (respWrite w c.requested c.forwarded c.errOut).1 = c.forwarded ∧
      (respWrite w c.requested c.forwarded c.errOut).2.1 = c.errOut) :=
  response_write_implicit_200 1 [⟨5, 5, none⟩, ⟨7, 3, none⟩] (by decide)

/-! ## Execution engine (mig.go `Execute`, newer generation)

The handler chain's observable outcome is either a normal return (nil or an
error) or a panic carrying a recovered value. A recovered value is either an
error value or a non-error value, which `Execute` formats with
`fmt.Errorf("%v", rec)` — a fresh plain error. `Execute` is modelled by the
error-handler invocations it performs and the value it re-panics, if any. -/

inductive PanicValue where
  | isErr (e : GoErr) : PanicValue
  | notErr (formatted : String) : PanicValue
deriving DecidableEq

/-- The error `Execute` derives from the recovered value: the value itself
when it is an error, otherwise `fmt.Errorf("%v", rec)`. -/
def coercePanic : PanicValue → GoErr
  | PanicValue.isErr e => e
  | PanicValue.notErr s => GoErr.plain s

/-- Observable outcome of running the composed handler chain. -/
inductive HandlerOutcome where
  | ok : HandlerOutcome
  | fail (e : GoErr) : HandlerOutcome
  | panics (v : PanicValue) : HandlerOutcome
deriving DecidableEq

/-- What `Execute` did: the errors it passed to the error handler, and the
value it re-raised with `panic`, if any. -/
structure ExecResult where
  errorHandlerCalls : List GoErr
  repanicked : Option GoErr
deriving DecidableEq

/-- mig.go `Execute` (newer generation), after `Reset`: run the handler; a
returned error goes to the error handler; a panic is recovered, coerced to an
error, re-panicked if it `errors.Is` `http.ErrAbortHandler`, and otherwise
wrapped into `HTTPError{500, status text, Internal: err, Stack: debug.Stack()}`
and passed to the error handler. `stack` stands for the captured
`debug.Stack()` text. -/
def migExecute (outcome : HandlerOutcome) (stack : String) : ExecResult :=
  match outcome with
  | HandlerOutcome.ok => ⟨[], none⟩
  | HandlerOutcome.fail e => ⟨[e], none⟩
  | HandlerOutcome.panics v =>
      let err := coercePanic v
      if errorsIs err GoErr.abortHandler then ⟨[], some err⟩
      else ⟨[GoErr.httpError 500 (statusText 500) err stack], none⟩

/-- C2: when the handler chain panics, Execute recovers the value; if it is or
wraps the abort sentinel, that same value is re-raised (unchanged for an
error-valued panic) and the error handler is not called; otherwise the error
handler receives an HTTPError with status 500, the recovered value as internal
cause and the captured stack trace, and nothing is re-raised, so the panic
never escapes. -/
theorem execute_panic_recovery (v : PanicValue) (stack : String) :
    migExecute (HandlerOutcome.panics v) stack =
      (if errorsIs (coercePanic v) GoErr.abortHandler then
        ⟨[], some (coercePanic v)⟩
      else
        ⟨[GoErr.httpError 500 (statusText 500) (coercePanic v) stack], none⟩) ∧
    (∀ e : GoErr, v = PanicValue.isErr e → coercePanic v = e) := by
  constructor
  · rfl
  · intro e he
    rw [he]
    rfl

/-- Witness for `execute_panic_recovery`: a panic carrying the abort sentinel
itself is re-raised unchanged, and a plain panic value is routed to the error
handler as a 500 with cause and stack. -/
theorem execute_panic_recovery_check :
    migExecute (HandlerOutcome.panics (PanicValue.isErr GoErr.abortHandler)) "st" =
      ⟨[], some GoErr.abortHandler⟩ ∧
    migExecute (HandlerOutcome.panics (PanicValue.notErr "boom")) "st" =
      ⟨[GoErr.httpError 500 "Internal Server Error" (GoErr.plain "boom") "st"], none⟩ := by
  constructor
  · have h := (execute_panic_recovery (PanicValue.isErr GoErr.abortHandler) "st").1
    rw [h]
    decide
  · have h := (execute_panic_recovery (PanicValue.notErr "boom") "st").1
    rw [h]
    decide

/-! ## Query parameters (context.go, newer generation)

Go's `url.Values` is a map from key to the list of values given for that key;
it is embedded as an association list with unique keys (`Request.URL.Query()`
produces one entry per distinct key, in some order; lookup is by key).
`parseQuery` embeds the relevant behavior of `url.ParseQuery`: split the raw
query on `&`, skip empty segments, cut each segment at the first `=` (a
segment without `=` gets the empty value), and append the value to the key's
list. Percent-decoding is omitted; no claim input uses escapes. -/

abbrev Values := List (String × List String)

/-- Map lookup on the association-list embedding of `url.Values`. -/
def lookupValues (q : Values) (name : String) : Option (List String) :=
  (q.find? (fun p => p.1 == name)).map (fun p => p.2)

/-- Append one parsed `key=value` pair into the map, extending the key's
value list (as `url.ParseQuery` does with `m[key] = append(m[key], value)`). -/
def addValue (q : Values) (k v : String) : Values :=
  match q with
  | [] => [(k, [v])]
  | (k', vs) :: rest =>
      if k' == k then (k', vs ++ [v]) :: rest else (k', vs) :: addValue rest k v

/-- Split a character list at every occurrence of `sep` (the behavior of
`strings.Split` on the query string's characters). -/
def splitOnChar (sep : Char) : List Char → List (List Char)
  | [] => [[]]
  | c :: rest =>
      match splitOnChar sep rest with
      | [] => if c == sep then [[], []] else [[c]]
      | g :: gs => if c == sep then [] :: g :: gs else (c :: g) :: gs

/-- Cut a character list at the first occurrence of `sep` (the behavior of
`strings.Cut`): before, after, and whether `sep` occurred. -/
def cutFirst (sep : Char) : List Char → List Char × List Char × Bool
  | [] => ([], [], false)
  | c :: rest =>
      if c == sep then ([], rest, true)
      else
        match cutFirst sep rest with
        | (before, after, found) => (c :: before, after, found)

/-- Cut a `key=value` segment at the first `=`; no `=` means empty value. -/
def parsePair (seg : List Char) : String × String :=
  match cutFirst '=' seg with
  | (key, value, _) => (String.mk key, String.mk value)

/-- Embeds `url.ParseQuery` (modulo percent-decoding, unused here): split on
`&`, skip empty segments, cut the pair at the first `=`, accumulate per key. -/
def parseQuery (raw : String) : Values :=
  (splitOnChar '&' raw.toList).foldl
    (fun q seg =>
      if seg.isEmpty then q
      else addValue q (parsePair seg).1 (parsePair seg).2)
    []

/-- context.go `QueryParam` (newer generation): if the key is present return
its first value (the empty string when the value list is empty), otherwise
return the default. -/
def QueryParam (q : Values) (name dflt : String) : String :=
  match lookupValues q name with
  | some val =>
      match val with
      | v :: _ => v
      | [] => ""
  | none => dflt

/-- context.go `HasQueryParam`: key presence, regardless of value. -/
def HasQueryParam (q : Values) (name : String) : Bool :=
  (lookupValues q name).isSome

/-- C3: QueryParam returns the first value whenever the key is present (the
empty string for a present-but-empty value such as `?name=`), and the default
exactly when the key is absent; HasQueryParam is true iff the key is present.
Instantiated on the parsed query strings `x=` and the empty query. -/
theorem queryparam_present_empty_default (q : Values) (name dflt : String) :
    (∀ vs, lookupValues q name = some vs → QueryParam q name dflt = vs.headD "") ∧
    (lookupValues q name = none → QueryParam q name dflt = dflt) ∧
    HasQueryParam q name = (lookupValues q name).isSome ∧
    QueryParam (parseQuery "x=") "x" dflt = "" ∧
    QueryParam (parseQuery "") "x" dflt = dflt ∧
    HasQueryParam (parseQuery "x=") "x" = true ∧
    HasQueryParam (parseQuery "") "x" = false := by
  refine ⟨?_, ?_, rfl, rfl, rfl, rfl, rfl⟩
  · intro vs h
    unfold QueryParam
    rw [h]
    cases vs <;> rfl
  · intro h
    unfold QueryParam
    rw [h]

/-- Witness for `queryparam_present_empty_default` on the query string `x=`:
the key `x` maps to the single explicit empty value, QueryParam returns the
empty string rather than the default, and HasQueryParam agrees with key
presence. -/
theorem queryparam_present_empty_default_check :
    lookupValues (parseQuery "x=") "x" = some [""] ∧
    QueryParam (parseQuery "x=") "x" "d" = "" ∧
    HasQueryParam (parseQuery "x=") "x" = (lookupValues (parseQuery "x=") "x").isSome := by
  refine ⟨by decide, ?_, (queryparam_present_empty_default (parseQuery "x=") "x" "d").2.2.1⟩
  have h := (queryparam_present_empty_default (parseQuery "x=") "x" "d").1 [""] (by decide)
  rw [h]
  rfl

/-! ## Middleware composition and route groups (routegroup.go, newer generation)

A middleware transforms a downstream handler into an upstream handler. To
observe execution order, handlers are embedded as trace transformers: a
handler appends the markers it emits to a running log. `composeChain` is the
registration-time loop of `HandleRaw`:
`for i := len(mws)-1; i >= 0; i-- { fhandler = mws[i](fhandler) }`,
which is exactly a right fold. -/

abbrev EmitHandler := List String → List String

abbrev EmitMiddleware := EmitHandler → EmitHandler

/-- The `HandleRaw` wrapping loop: index len-1 down to 0, so the
first-registered middleware ends up outermost. -/
def composeChain (mws : List EmitMiddleware) (h : EmitHandler) : EmitHandler :=
  mws.foldr (fun mw acc => mw acc) h

/-- routegroup.go `RouteGroup` (newer generation): accumulated path prefix and
the materialized middleware list. -/
structure RouteGroupS where
  PathPrefix : String
  middlewares : List EmitMiddleware

/-- routegroup.go `Group`: child prefix is parent prefix plus suffix; child
middleware is a copy of the parent's list with the new middleware appended. -/
def RouteGroupS.group (rg : RouteGroupS) (pfx : String)
    (mws : List EmitMiddleware) : RouteGroupS :=
  ⟨rg.PathPrefix ++ pfx, rg.middlewares ++ mws⟩

/-- The root group of a `Mig` instance with the given `Use`-registered
middleware (mig.go `New` embeds a RouteGroup with empty prefix). -/
def migRootGroup (mws : List EmitMiddleware) : RouteGroupS :=
  ⟨"", mws⟩

/-- A marker middleware: emits `name:before`, calls downstream, then emits
`name:after`. -/
def mkMarkerMw (name : String) : EmitMiddleware :=
  fun next log => (next (log ++ [name ++ ":before"])) ++ [name ++ ":after"]

/-- A marker handler emitting `H`. -/
def markerHandler : EmitHandler :=
  fun log => log ++ ["H"]

theorem composeChain_markers (names : List String) (h : EmitHandler)
    (log : List String) :
    composeChain (names.map mkMarkerMw) h log =
      h (log ++ names.map (fun n => n ++ ":before")) ++
        (names.reverse.map (fun n => n ++ ":after")) := by
  induction names generalizing log with
  | nil => simp [composeChain]
  | cons n rest ih =>
      simp only [List.map_cons, List.reverse_cons, List.map_append, List.map_cons,
        List.map_nil, composeChain, List.foldr_cons]
      show mkMarkerMw n (composeChain (rest.map mkMarkerMw) h) log = _
      rw [mkMarkerMw]
      rw [ih (log ++ [n ++ ":before"])]
      simp [List.append_assoc]

/-- C1: for a group tree with root-level middleware and a descendant group's
own middleware, the handler composed at registration time runs middleware in
registration order — root-registered middleware first, then the group's own,
each observing the request before and the response after everything
registered later; with root middleware A, group middleware B and handler H the
emission order is A:before, B:before, H, B:after, A:after. -/
theorem middleware_registration_order (rootNames groupNames : List String)
    (pfx : String) :
    composeChain
      (((migRootGroup (rootNames.map mkMarkerMw)).group pfx
          (groupNames.map mkMarkerMw)).middlewares)
      markerHandler [] =
      ((rootNames ++ groupNames).map (fun n => n ++ ":before")) ++ ["H"] ++
        ((rootNames ++ groupNames).reverse.map (fun n => n ++ ":after")) := by
  show composeChain (rootNames.map mkMarkerMw ++ groupNames.map mkMarkerMw)
      markerHandler [] = _
  rw [← List.map_append]
  rw [composeChain_markers (rootNames ++ groupNames) markerHandler []]
  simp [markerHandler]

/-! ## JSON binding (context.go `BindJSON`)

`BindJSON` builds a `json.Decoder` on the request body, sets
`DisallowUnknownFields`, decodes into the target, and on any decode error
returns `NewHTTPError(400)` with the decode error as internal cause.
The stdlib decoder is embedded for the flat string/int struct shapes the
claims exercise: the body is either empty (`io.EOF`), syntactically malformed,
a non-object value, or an object given as a field list. Decoding checks each
payload field against the target shape: an unknown field is an error when
`DisallowUnknownFields` is set (and skipped otherwise), and a type mismatch is
an error. On success the field assignments populate the target. -/

inductive JVal where
  | jstr (s : String) : JVal
  | jnum (n : Int) : JVal
  | jbool (b : Bool) : JVal
  | jnull : JVal
deriving DecidableEq

inductive FieldType where
  | str : FieldType
  | int : FieldType
deriving DecidableEq

/-- One field of the target struct's JSON shape. -/
structure FieldSpec where
  name : String
  type : FieldType
deriving DecidableEq

def typeMatches : FieldType → JVal → Bool
  | FieldType.str, JVal.jstr _ => true
  | FieldType.int, JVal.jnum _ => true
  | _, _ => false

/-- Syntactic classification of the request body as the decoder sees it. -/
inductive BodyInput where
  | empty : BodyInput
  | malformed (raw : String) : BodyInput
  | nonObject (v : JVal) : BodyInput
  | object (fields : List (String × JVal)) : BodyInput
deriving DecidableEq

/-- Decode an object's fields against the target shape. -/
def decodeFields (disallow : Bool) (shape : List FieldSpec) :
    List (String × JVal) → Except GoErr (List (String × JVal))
  | [] => Except.ok []
  | (k, v) :: rest =>
      match shape.find? (fun f => f.name == k) with
      | none =>
          if disallow then Except.error (GoErr.plain ("json: unknown field " ++ k))
          else decodeFields disallow shape rest
      | some f =>
          if typeMatches f.type v then
            match decodeFields disallow shape rest with
            | Except.ok assigned => Except.ok ((k, v) :: assigned)
            | Except.error e => Except.error e
          else
            Except.error (GoErr.plain ("json: cannot unmarshal value into field " ++ k))

/-- The embedded `json.Decoder.Decode` of the stdlib collaborator. -/
def goJSONDecode (disallow : Bool) (shape : List FieldSpec) :
    BodyInput → Except GoErr (List (String × JVal))
  | BodyInput.empty => Except.error (GoErr.plain "EOF")
  | BodyInput.malformed raw =>
      Except.error (GoErr.plain ("invalid character in " ++ raw))
  | BodyInput.nonObject _ =>
      Except.error (GoErr.plain "json: cannot unmarshal value into struct")
  | BodyInput.object fs => decodeFields disallow shape fs

/-- context.go `BindJSON`: decode with unknown fields disallowed; wrap any
decode error in `NewHTTPError(400)` as internal cause; on success the decoded
assignments populate the target and nil is returned. -/
def BindJSON (shape : List FieldSpec) (body : BodyInput) :
    Except GoErr (List (String × JVal)) :=
  match goJSONDecode true shape body with
  | Except.error e => Except.error (GoErr.httpError 400 (statusText 400) e "")
  | Except.ok v => Except.ok v

theorem decodeFields_unknown_field (shape : List FieldSpec)
    (fs : List (String × JVal)) (k : String) (v : JVal)
    (hmem : (k, v) ∈ fs)
    (hnone : shape.find? (fun f => f.name == k) = none) :
    ∃ e, decodeFields true shape fs = Except.error e := by
  induction fs with
  | nil => cases hmem
  | cons hd rest ih =>
      rcases hd with ⟨k', v'⟩
      rcases List.mem_cons.mp hmem with heq | htail
      · have hk : k' = k := by
          have h1 := congrArg Prod.fst heq
          simpa using h1.symm
        subst hk
        exact ⟨GoErr.plain ("json: unknown field " ++ k'),
          by simp [decodeFields, hnone]⟩
      · rcases ih htail with ⟨e, he⟩
        unfold decodeFields
        cases hfind : shape.find? (fun f => f.name == k') with
        | none => exact ⟨GoErr.plain ("json: unknown field " ++ k'), by simp⟩
        | some f =>
            by_cases hty : typeMatches f.type v' = true
            · simp only [hty, if_true, he]
              exact ⟨e, rfl⟩
            · simp only [Bool.not_eq_true] at hty
              simp only [hty, Bool.false_eq_true, if_false]
              exact ⟨GoErr.plain ("json: cannot unmarshal value into field " ++ k'), rfl⟩

/-- C4: BindJSON turns every decode failure (malformed syntax, unknown field,
type mismatch, empty body) into a 400 HTTPError whose internal cause is the
underlying decode error, rejects any payload field not in the target's shape,
and on a successful decode returns nil with the decoded assignments populating
the target. -/
theorem bindjson_bad_request (shape : List FieldSpec) (body : BodyInput) :
    (∀ e, goJSONDecode true shape body = Except.error e →
      BindJSON shape body = Except.error (GoErr.httpError 400 (statusText 400) e "")) ∧
    (∀ v, goJSONDecode true shape body = Except.ok v →
      BindJSON shape body = Except.ok v) ∧
    (∀ (k : String) (jv : JVal) (fs : List (String × JVal)),
      body = BodyInput.object fs → (k, jv) ∈ fs →
      shape.find? (fun f => f.name == k) = none →
      ∃ e, BindJSON shape body =
        Except.error (GoErr.httpError 400 (statusText 400) e "")) ∧
    BindJSON shape BodyInput.empty =
      Except.error (GoErr.httpError 400 (statusText 400) (GoErr.plain "EOF") "") := by
  refine ⟨?_, ?_, ?_, rfl⟩
  · intro e h
    unfold BindJSON
    rw [h]
  · intro v h
    unfold BindJSON
    rw [h]
  · intro k jv fs hbody hmem hnone
    subst hbody
    rcases decodeFields_unknown_field shape fs k jv hmem hnone with ⟨e, he⟩
    refine ⟨e, ?_⟩
    unfold BindJSON
    have : goJSONDecode true shape (BodyInput.object fs) = Except.error e := he
    rw [this]

/-- Witness for `bindjson_bad_request` on the shape of the repository's test
struct (`name` string, `age` int): a payload with the unknown field `email`
binds to a 400 HTTPError wrapping the decode error, and the matching payload
binds successfully, populating both fields. -/
theorem bindjson_bad_request_check :
    (goJSONDecode true [⟨"name", FieldType.str⟩, ⟨"age", FieldType.int⟩]
        (BodyInput.object [("name", JVal.jstr "John"), ("email", JVal.jstr "j")]) =
      Except.error (GoErr.plain "json: unknown field email")) ∧
    BindJSON [⟨"name", FieldType.str⟩, ⟨"age", FieldType.int⟩]
        (BodyInput.object [("name", JVal.jstr "John"), ("email", JVal.jstr "j")]) =
      Except.error (GoErr.httpError 400 "Bad Request"
        (GoErr.plain "json: unknown field email") "") ∧
    BindJSON [⟨"name", FieldType.str⟩, ⟨"age", FieldType.int⟩]
        (BodyInput.object [("name", JVal.jstr "John"), ("age", JVal.jnum 30)]) =
      Except.ok [("name", JVal.jstr "John"), ("age", JVal.jnum 30)] := by
  refine ⟨rfl, ?_, ?_⟩
  · have h := (bindjson_bad_request
        [⟨"name", FieldType.str⟩, ⟨"age", FieldType.int⟩]
        (BodyInput.object [("name", JVal.jstr "John"), ("email", JVal.jstr "j")])).1
      (GoErr.plain "json: unknown field email") rfl
    rw [h]
    rfl
  · have h := (bindjson_bad_request
        [⟨"name", FieldType.str⟩, ⟨"age", FieldType.int⟩]
        (BodyInput.object [("name", JVal.jstr "John"), ("age", JVal.jnum 30)])).2.1
      [("name", JVal.jstr "John"), ("age", JVal.jnum 30)] rfl
    rw [h]

/-! ## Default error handler (mig.go `DefaultErrorHandler`, newer generation)

The handler coerces the incoming error with `errors.As`, logs, and then
writes at most one response, chosen by the written-bytes guard, the bodyless
status codes, and Accept-header content negotiation. Its externally visible
behavior is embedded as the final `Response` state plus the ordered list of
actions it performs: header sets, status writes and body writes through the
wrapper (client-visible), and log records (server-side only). Body writes
assume the underlying sink accepts all bytes, as the in-process test server
does. -/

inductive Action where
  | setHeader (k v : String) : Action
  | writeHeader (code : Nat) : Action
  | writeBody (chunk : String) : Action
  | logPanic (id : String) (internal : GoErr) (stack : String) : Action
  | logError (id : String) (code : Nat) (internal : GoErr) : Action
deriving DecidableEq

/-- Log records stay on the server; everything else reaches the client. -/
def Action.isClientVisible : Action → Bool
  | Action.logPanic _ _ _ => false
  | Action.logError _ _ _ => false
  | _ => true

/-- The client-visible subsequence of the handler's actions. -/
def clientActions (acts : List Action) : List Action :=
  acts.filter Action.isClientVisible

def hasPrefixChars : List Char → List Char → Bool
  | [], _ => true
  | _ :: _, [] => false
  | a :: as, b :: bs => a == b && hasPrefixChars as bs

def containsChars (sub : List Char) : List Char → Bool
  | [] => sub.isEmpty
  | c :: rest => hasPrefixChars sub (c :: rest) || containsChars sub rest

/-- Models Go `strings.Contains(s, sub)`. -/
def goContains (s sub : String) : Bool :=
  containsChars sub.toList s.toList

def jsonEscapeChar (c : Char) : String :=
  if c == '"' then "\\\""
  else if c == '\\' then "\\\\"
  else if c == '\n' then "\\n"
  else String.singleton c

/-- JSON string rendering for the message strings in use (quote, backslash
and newline escapes; `encoding/json` escapes more, none of which occur). -/
def jsonString (s : String) : String :=
  "\"" ++ String.join (s.toList.map jsonEscapeChar) ++ "\""

/-- The bytes `json.NewEncoder(w).Encode(map{code, message})` produces: keys
in sorted order (`code` before `message`) and a trailing newline. -/
def jsonErrorPayload (code : Nat) (message : String) : String :=
  "\x7b\"code\":" ++ toString code ++ ",\"message\":" ++ jsonString message ++ "\x7d\n"

/-- `errors.As` coercion at the top of the handler: keep the first `HTTPError`
on the unwrap chain, else wrap as a 500 with the original as internal cause. -/
def coerceToHTTP (err : GoErr) : HTTPError :=
  match errorsAsHTTP err with
  | some e => e
  | none => ⟨500, statusText 500, err, ""⟩

/-- The handler's unconditional log record: the panic form (request id,
internal cause, stack) when a stack is present, the plain form (request id,
status code, internal cause) otherwise. -/
def logActions (e : HTTPError) (reqID : String) : List Action :=
  if e.Stack != "" then [Action.logPanic reqID e.Internal e.Stack]
  else [Action.logError reqID e.Code e.Internal]

/-- A body write through the wrapper: implicit 200 when no status is set, and
the chunk's length added to the written counter. -/
def bodyWrite (w : Response) (chunk : String) : Response :=
  let w1 := if w.status == 0 then respWriteHeader w 200 else w
  { w1 with written := w1.written + chunk.length }

/-- mig.go `DefaultErrorHandler` after the `errors.As` coercion: log; stop if
bytes were already written; bodyless statuses 204/304 get only a status
write; an Accept header containing `application/json` gets the JSON payload;
otherwise `http.Error` writes the plain-text fallback. -/
def handlerAfterCoerce (e : HTTPError) (reqID accept : String) (resp : Response) :
    Response × List Action :=
  let logs := logActions e reqID
  if resp.written > 0 then (resp, logs)
  else if e.Code == 204 || e.Code == 304 then
    (respWriteHeader resp e.Code, logs ++ [Action.writeHeader e.Code])
  else if goContains accept "application/json" then
    let payload := jsonErrorPayload e.Code e.Message
    (bodyWrite (respWriteHeader resp e.Code) payload,
      logs ++ [Action.setHeader "Content-Type" "application/json; charset=utf-8",
        Action.writeHeader e.Code, Action.writeBody payload])
  else
    (bodyWrite (respWriteHeader resp e.Code) (e.Message ++ "\n"),
      logs ++ [Action.setHeader "Content-Type" "text/plain; charset=utf-8",
        Action.setHeader "X-Content-Type-Options" "nosniff",
        Action.writeHeader e.Code, Action.writeBody (e.Message ++ "\n")])

/-- mig.go `DefaultErrorHandler` (newer generation). -/
def DefaultErrorHandler (err : GoErr) (reqID accept : String) (resp : Response) :
    Response × List Action :=
  handlerAfterCoerce (coerceToHTTP err) reqID accept resp

theorem clientActions_logActions (e : HTTPError) (reqID : String) :
    clientActions (logActions e reqID) = [] := by
  unfold logActions clientActions
  split <;> rfl

theorem clientActions_append (l1 l2 : List Action) :
    clientActions (l1 ++ l2) = clientActions l1 ++ clientActions l2 := by
  unfold clientActions
  simp [List.filter_append]

/-- The client-visible actions as a function of the public data only: status
code, public message, Accept header and prior response state. -/
def clientVisible (code : Nat) (message accept : String) (resp : Response) :
    List Action :=
  if resp.written > 0 then []
  else if code == 204 || code == 304 then [Action.writeHeader code]
  else if goContains accept "application/json" then
    [Action.setHeader "Content-Type" "application/json; charset=utf-8",
      Action.writeHeader code, Action.writeBody (jsonErrorPayload code message)]
  else
    [Action.setHeader "Content-Type" "text/plain; charset=utf-8",
      Action.setHeader "X-Content-Type-Options" "nosniff",
      Action.writeHeader code, Action.writeBody (message ++ "\n")]

theorem handlerAfterCoerce_client (e : HTTPError) (reqID accept : String)
    (resp : Response) :
    clientActions (handlerAfterCoerce e reqID accept resp).2 =
      clientVisible e.Code e.Message accept resp := by
  unfold handlerAfterCoerce clientVisible
  by_cases h1 : resp.written > 0
  · simp only [h1, if_true]
    exact clientActions_logActions e reqID
  · simp only [h1, if_false]
    by_cases h2 : (e.Code == 204 || e.Code == 304) = true
    · simp only [h2, if_true]
      rw [clientActions_append, clientActions_logActions]
      rfl
    · simp only [h2, Bool.false_eq_true, if_false]
      by_cases h3 : goContains accept "application/json" = true
      · simp only [h3, if_true]
        rw [clientActions_append, clientActions_logActions]
        rfl
      · simp only [h3, Bool.false_eq_true, if_false]
        rw [clientActions_append, clientActions_logActions]
        rfl

/-- C5: when the response already has written bytes, the default error handler
only logs: the response state (status and written counter included) is
returned unchanged and no client-visible action — no status write, no body
write, no header set — is performed. -/
theorem error_handler_written_guard (err : GoErr) (reqID accept : String)
    (resp : Response) (h : resp.written > 0) :
    DefaultErrorHandler err reqID accept resp =
      (resp, logActions (coerceToHTTP err) reqID) ∧
    clientActions (DefaultErrorHandler err reqID accept resp).2 = [] := by
  constructor
  · unfold DefaultErrorHandler handlerAfterCoerce
    simp only [h, if_true]
  · unfold DefaultErrorHandler
    rw [handlerAfterCoerce_client]
    unfold clientVisible
    simp only [h, if_true]

/-- Witness for `error_handler_written_guard`: a response with 5 bytes
already written is untouched by the handler. -/
theorem error_handler_written_guard_check :
    (5 : Nat) > 0 ∧
    (DefaultErrorHandler (GoErr.plain "late failure") "req1" "text/html" ⟨1, 200, 5⟩ =
      (⟨1, 200, 5⟩, logActions (coerceToHTTP (GoErr.plain "late failure")) "req1") ∧
    clientActions (DefaultErrorHandler (GoErr.plain "late failure") "req1" "text/html"
      ⟨1, 200, 5⟩).2 = []) :=
  ⟨by decide,
    error_handler_written_guard (GoErr.plain "late failure") "req1" "text/html"
      ⟨1, 200, 5⟩ (by decide)⟩

/-- C6: an error that is not (and does not wrap) a structured HTTPError is
coerced into one with status 500, the standard 500 status text as message and
the original error as internal cause, and the handler then proceeds on that
coerced error. -/
theorem error_handler_coerces_500 (err : GoErr) (reqID accept : String)
    (resp : Response) (h : errorsAsHTTP err = none) :
    coerceToHTTP err = ⟨500, "Internal Server Error", err, ""⟩ ∧
    DefaultErrorHandler err reqID accept resp =
      handlerAfterCoerce ⟨500, "Internal Server Error", err, ""⟩ reqID accept resp := by
  have hc : coerceToHTTP err = ⟨500, "Internal Server Error", err, ""⟩ := by
    unfold coerceToHTTP
    rw [h]
    rfl
  exact ⟨hc, by unfold DefaultErrorHandler; rw [hc]⟩

/-- Witness for `error_handler_coerces_500` at a plain (unstructured) error. -/
theorem error_handler_coerces_500_check :
    errorsAsHTTP (GoErr.plain "db down") = none ∧
    coerceToHTTP (GoErr.plain "db down") =
      ⟨500, "Internal Server Error", GoErr.plain "db down", ""⟩ ∧
    DefaultErrorHandler (GoErr.plain "db down") "r" "text/html" ⟨1, 0, 0⟩ =
      handlerAfterCoerce ⟨500, "Internal Server Error", GoErr.plain "db down", ""⟩
        "r" "text/html" ⟨1, 0, 0⟩ := by
  refine ⟨by decide, ?_⟩
  have h := error_handler_coerces_500 (GoErr.plain "db down") "r" "text/html"
    ⟨1, 0, 0⟩ (by decide)
  exact h

/-- C7: the bytes the default error handler sends to the client are a function
of the coerced status code and public message alone — two errors agreeing on
those but differing in internal cause or stack trace produce identical
client-visible actions (cause and trace go only to logs) — and under an
Accept header containing application/json (fresh response, non-bodyless code)
the payload is exactly the JSON object with the code and the public message. -/
theorem error_handler_confidentiality (e1 e2 : GoErr) (id1 id2 accept : String)
    (resp : Response)
    (hcode : (coerceToHTTP e1).Code = (coerceToHTTP e2).Code)
    (hmsg : (coerceToHTTP e1).Message = (coerceToHTTP e2).Message) :
    clientActions (DefaultErrorHandler e1 id1 accept resp).2 =
      clientActions (DefaultErrorHandler e2 id2 accept resp).2 ∧
    (goContains accept "application/json" = true → resp.written = 0 →
      (coerceToHTTP e1).Code ≠ 204 → (coerceToHTTP e1).Code ≠ 304 →
      clientActions (DefaultErrorHandler e1 id1 accept resp).2 =
        [Action.setHeader "Content-Type" "application/json; charset=utf-8",
          Action.writeHeader (coerceToHTTP e1).Code,
          Action.writeBody (jsonErrorPayload (coerceToHTTP e1).Code
            (coerceToHTTP e1).Message)]) := by
  constructor
  · unfold DefaultErrorHandler
    rw [handlerAfterCoerce_client, handlerAfterCoerce_client, hcode, hmsg]
  · intro hjson hw h204 h304
    unfold DefaultErrorHandler
    rw [handlerAfterCoerce_client]
    unfold clientVisible
    have hnw : ¬ resp.written > 0 := by omega
    have hb : ((coerceToHTTP e1).Code == 204 || (coerceToHTTP e1).Code == 304) = false := by
      simp [Nat.beq_eq_true_eq, h204, h304]
    simp only [hnw, if_false, hb, Bool.false_eq_true, hjson, if_true]

/-- Witness for `error_handler_confidentiality`: two 404 errors, one bare and
one carrying a secret internal cause and a stack trace, produce identical
client-visible bytes, and the JSON-negotiated payload carries exactly the code
and public message. -/
theorem error_handler_confidentiality_check :
    (coerceToHTTP (GoErr.httpError 404 "Not Found" GoErr.nil "")).Code =
      (coerceToHTTP (GoErr.httpError 404 "Not Found" (GoErr.plain "secret") "tr")).Code ∧
    clientActions (DefaultErrorHandler (GoErr.httpError 404 "Not Found" GoErr.nil "")
        "a" "application/json" ⟨1, 0, 0⟩).2 =
      clientActions (DefaultErrorHandler
        (GoErr.httpError 404 "Not Found" (GoErr.plain "secret") "tr")
        "b" "application/json" ⟨1, 0, 0⟩).2 ∧
    clientActions (DefaultErrorHandler (GoErr.httpError 404 "Not Found" GoErr.nil "")
        "a" "application/json" ⟨1, 0, 0⟩).2 =
      [Action.setHeader "Content-Type" "application/json; charset=utf-8",
        Action.writeHeader 404,
        Action.writeBody (jsonErrorPayload 404 "Not Found")] := by
  have h := error_handler_confidentiality
    (GoErr.httpError 404 "Not Found" GoErr.nil "")
    (GoErr.httpError 404 "Not Found" (GoErr.plain "secret") "tr")
    "a" "b" "application/json" ⟨1, 0, 0⟩ (by decide) (by decide)
  refine ⟨by decide, h.1, ?_⟩
  have h2 := h.2 (by decide) (by decide) (by decide) (by decide)
  exact h2

/-! ## Pooled context (context.go, newer generation)

`Context` carries the request handle (whose attached `context.Context` is a
chain of key/value pairs, most recent first), the `Response` wrapper, a logger
(nil-able; a `slog` logger is its sequence of attached structured fields on
top of the process-wide base), the back-reference to the shared `Mig`
configuration (represented by passing `Mig.Logger` to `Reset`), the
response writer's header map, and the lazily parsed query cache. -/

structure Logger where
  fields : List (String × String)
deriving DecidableEq

/-- `slog.Logger.With(slog.String(k, v))`: a new logger with the field
appended; the receiver is not mutated. -/
def loggerWith (l : Logger) (k v : String) : Logger :=
  ⟨l.fields ++ [(k, v)]⟩

/-- Keys of the request's attached `context.Context`: the framework's
`requestIDKey{}` or an application key. -/
inductive CtxKey where
  | requestID : CtxKey
  | userKey (n : Nat) : CtxKey
deriving DecidableEq

/-- The inbound request handle: its attached context chain (most recent pair
first, as `context.WithValue` nests). -/
structure RequestS where
  ctxValues : List (CtxKey × String)
deriving DecidableEq

/-- `ctx.Value(key)`: the most recently attached value for the key. -/
def ctxValue (vs : List (CtxKey × String)) (k : CtxKey) : Option String :=
  (vs.find? (fun p => p.1 == k)).map (fun p => p.2)

structure ContextS where
  request : RequestS
  response : Response
  logger : Option Logger
  query : Option Values
  respHeaders : List (String × String)
deriving DecidableEq

/-- context.go `Reset` (newer generation): bind the new request and response
writer (`rw`), zero the wrapper's status and written counter, drop the query
cache, and restore the logger to `Mig.Logger` (`base`). The bound writer is
the fresh per-request one, so its header map starts empty. -/
def ctxReset (c : ContextS) (r : RequestS) (rw : Nat) (base : Option Logger) :
    ContextS :=
  { request := r
    response := ⟨rw, 0, 0⟩
    logger := base
    query := none
    respHeaders := [] }

/-- C9: Reset binds the new request and response sink, zeroes the response
status and written counter, clears the cached query parameters and restores
the base logger; the resulting context is independent of the pooled instance's
previous state, so nothing request-scoped (a request-ID-scoped logger in
particular) survives into the next request. -/
theorem reset_pooling_safety (c : ContextS) (r : RequestS) (rw : Nat)
    (base : Option Logger) :
    (ctxReset c r rw base).request = r ∧
    (ctxReset c r rw base).response = ⟨rw, 0, 0⟩ ∧
    (ctxReset c r rw base).query = none ∧
    (ctxReset c r rw base).logger = base ∧
    (∀ prev : ContextS, ctxReset prev r rw base = ctxReset c r rw base) := by
  exact ⟨rfl, rfl, rfl, rfl, fun prev => rfl⟩

/-! ## Request identifiers (context.go `SetRequestID` / `RequestID`) -/

/-- `http.Header.Set`: replace any existing values for the key. -/
def headerSet (hs : List (String × String)) (k v : String) :
    List (String × String) :=
  (hs.filter (fun p => p.1 != k)) ++ [(k, v)]

/-- context.go `RequestIDFromContext`: the context value under
`requestIDKey{}`, or the empty string. -/
def RequestIDFromContext (vs : List (CtxKey × String)) : String :=
  match ctxValue vs CtxKey.requestID with
  | some s => s
  | none => ""

/-- context.go `Context.RequestID`. -/
def ContextS.requestIDOf (c : ContextS) : String :=
  RequestIDFromContext c.request.ctxValues

/-- context.go `SetRequestID`: an empty id returns immediately; otherwise the
id is attached to the request context, mirrored into the `X-Request-ID`
response header, and — when a logger is attached — the logger is rescoped
with an `id` field. -/
def SetRequestID (c : ContextS) (id : String) : ContextS :=
  if id == "" then c
  else
    { c with
      request := ⟨(CtxKey.requestID, id) :: c.request.ctxValues⟩
      respHeaders := headerSet c.respHeaders "X-Request-ID" id
      logger :=
        match c.logger with
        | some l => some (loggerWith l "id" id)
        | none => none }

/-- A pooled context that already carries request ID `abc` (as after
`SetRequestID "abc"` attached it to the request context). -/
def ctxWithAbcID : ContextS :=
  { request := ⟨[(CtxKey.requestID, "abc")]⟩
    response := ⟨1, 0, 0⟩
    logger := none
    query := none
    respHeaders := [("X-Request-ID", "abc")] }

/-- C10 counterexample: on a context whose request already carries ID `abc`,
`SetRequestID ""` is a no-op as claimed, but the subsequent `RequestID()`
returns `abc`, not the empty string, so the claim's final conjunct fails. -/
theorem setrequestid_empty_id_not_blank :
    SetRequestID ctxWithAbcID "" = ctxWithAbcID ∧
    ContextS.requestIDOf (SetRequestID ctxWithAbcID "") = "abc" ∧
    ("abc" : String) ≠ "" := by
  refine ⟨rfl, rfl, by decide⟩

/-- C10 (amended): SetRequestID with the empty string is a complete no-op —
the context, its request handle and attached context, its logger and the
response headers are all unchanged — and a subsequent RequestID() returns
exactly what it returned before the call; in particular it still returns the
empty string when no request ID had been established. -/
theorem setrequestid_empty_noop (c : ContextS) :
    SetRequestID c "" = c ∧
    ContextS.requestIDOf (SetRequestID c "") = ContextS.requestIDOf c ∧
    (ContextS.requestIDOf c = "" → ContextS.requestIDOf (SetRequestID c "") = "") := by
  have h : SetRequestID c "" = c := rfl
  exact ⟨h, by rw [h], by intro hid; rw [h, hid]⟩

/-- Witness for `setrequestid_empty_noop` on a fresh context with no
established request ID. -/
theorem setrequestid_empty_noop_check :
    ContextS.requestIDOf ⟨⟨[]⟩, ⟨1, 0, 0⟩, none, none, []⟩ = "" ∧
    SetRequestID ⟨⟨[]⟩, ⟨1, 0, 0⟩, none, none, []⟩ "" =
      ⟨⟨[]⟩, ⟨1, 0, 0⟩, none, none, []⟩ ∧
    ContextS.requestIDOf (SetRequestID ⟨⟨[]⟩, ⟨1, 0, 0⟩, none, none, []⟩ "") = "" :=
  ⟨by decide,
    (setrequestid_empty_noop ⟨⟨[]⟩, ⟨1, 0, 0⟩, none, none, []⟩).1,
    (setrequestid_empty_noop ⟨⟨[]⟩, ⟨1, 0, 0⟩, none, none, []⟩).2.2 (by decide)⟩

end Mig
